import Mathlib

/-!
Verification of the `photo_keyword_tagger` repository.

The development shallowly embeds the original logic of the repository:

* `file_finder.py` — `find_raw_file`, `find_raw_files`;
* `xmp_tagger.py` — `get_xmp_path`, `check_xmp_exists`, `ensure_xmp_sidecars`,
  `add_keywords_to_xmp`, `batch_add_keywords`;
* `keyword_generator.py` — the response-concatenation and JSON-parsing stage of
  `generate_keywords`;
* `pipeline.py` — `process_directory`.

The filesystem is modelled as an explicit finite collection of files and
directories.  A path is a directory (list of components) plus a file name, so
`pathlib.Path.parent`, `.stem` and `/` have direct counterparts.  External
effects (the exiftool subprocess, the inference stream) are made explicit:
functions return the list of external command invocations they would perform,
and the streamed inference response is a parameter (a list of optional text
fragments, `None` fragments and empty fragments being skipped exactly as the
Python `if chunk.text:` does).  Fallible Python code (raising exceptions)
becomes `Except PyErr`.
-/

namespace PhotoTagger

/-- A filesystem path: directory components plus the final file name.
Mirrors `pathlib.Path`: `dir` is `.parent`, `name` is `.name`. -/
structure FPath where
  dir : List String
  name : String
deriving DecidableEq

/-- The modelled filesystem state: the set of existing files and the set of
existing directories (each directory given by its components). -/
structure FS where
  files : List FPath
  dirs : List (List String)
deriving DecidableEq

/-- `str(path)` for a file path (POSIX rendering). -/
def pathStr (p : FPath) : String :=
  String.intercalate "/" (p.dir ++ [p.name])

/-- `str(path)` for a directory path. -/
def dirStr (d : List String) : String :=
  String.intercalate "/" d

/-- `path.exists()` for a file. -/
def fileExists (fs : FS) (p : FPath) : Bool :=
  decide (p ∈ fs.files)

/-- `path.exists()` for a directory. -/
def dirExists (fs : FS) (d : List String) : Bool :=
  decide (d ∈ fs.dirs)

/-- Index of the last occurrence of `c` in `l` (Python `str.rfind`). -/
def rfindIdx : List Char → Char → Option Nat
  | [], _ => none
  | x :: xs, c =>
    match rfindIdx xs c with
    | some j => some (j + 1)
    | none => if x = c then some 0 else none

/-- `pathlib.PurePath.stem`: the file name without its last suffix.  The suffix
starts at the last dot, provided that dot is neither the first nor the last
character of the name (so `.bashrc` and `a.` keep their dot). -/
def pyStem (name : String) : String :=
  match rfindIdx name.data '.' with
  | some i => if 0 < i ∧ i < name.data.length - 1 then String.mk (name.data.take i) else name
  | none => name

/-- Embedding of `xmp_tagger.get_xmp_path`:
`raw_file.parent / f"{raw_file.stem}.xmp"`. -/
def get_xmp_path (raw : FPath) : FPath :=
  ⟨raw.dir, pyStem raw.name ++ ".xmp"⟩

/-- Embedding of `xmp_tagger.check_xmp_exists`. -/
def check_xmp_exists (fs : FS) (raw : FPath) : Bool :=
  fileExists fs (get_xmp_path raw)

/-- Embedding of `xmp_tagger.ensure_xmp_sidecars`: splits the list into
(files with a sidecar, files without), preserving order. -/
def ensure_xmp_sidecars (fs : FS) (raw_files : List FPath) : List FPath × List FPath :=
  raw_files.partition (fun r => check_xmp_exists fs r)

/-- Python exception values raised by the embedded code. -/
inductive PyErr where
  | fileNotFoundError (msg : String)
  | valueError (msg : String)
  | attributeError (msg : String)
  | pipelineError (msg : String)
deriving DecidableEq

/-- Default RAW extension list of `file_finder.find_raw_file`. -/
def default_extensions : List String := [".arw", ".dng", ".ARW", ".DNG"]

/-- `base_path.glob(f"**/{fname}")`: every file named exactly `fname` lying in
`base` or any of its subdirectories, in filesystem (model) order. -/
def globRec (fs : FS) (base : List String) (fname : String) : List FPath :=
  fs.files.filter (fun p => base.isPrefixOf p.dir && p.name == fname)

/-- The extension loop of `find_raw_file`: try each extension in order and
return the first glob match. -/
def findFirstMatch (fs : FS) (base : List String) (stem : String) : List String → Option FPath
  | [] => none
  | ext :: rest =>
    match globRec fs base (stem ++ ext) with
    | [] => findFirstMatch fs base stem rest
    | m :: _ => some m

/-- Embedding of `file_finder.find_raw_file`.  `extsArg = none` selects the
default extension list, as the Python `extensions=None` default does.  The
base path must exist or a `FileNotFoundError` is raised. -/
def find_raw_file (fs : FS) (jpeg : FPath) (base : List String)
    (extsArg : Option (List String)) : Except PyErr (Option FPath) :=
  let exts := extsArg.getD default_extensions
  if dirExists fs base then .ok (findFirstMatch fs base (pyStem jpeg.name) exts)
  else .error (.fileNotFoundError ("Base path does not exist: " ++ dirStr base))

/-- Python `dict` assignment `d[k] = v`: replaces the value in place if the key
is present, otherwise appends the new pair (insertion order preserved). -/
def dictInsert {α : Type} (d : List (FPath × α)) (k : FPath) (v : α) : List (FPath × α) :=
  if d.any (fun e => e.1 == k) then
    d.map (fun e => if e.1 == k then (k, v) else e)
  else d ++ [(k, v)]

/-- The loop of `file_finder.find_raw_files`, building the result dict. -/
def find_raw_files_loop (fs : FS) (base : List String) (extsArg : Option (List String)) :
    List FPath → List (FPath × Option FPath) → Except PyErr (List (FPath × Option FPath))
  | [], acc => .ok acc
  | j :: rest, acc =>
    match find_raw_file fs j base extsArg with
    | .error e => .error e
    | .ok r => find_raw_files_loop fs base extsArg rest (dictInsert acc j r)

/-- Embedding of `file_finder.find_raw_files`. -/
def find_raw_files (fs : FS) (jpegs : List FPath) (base : List String)
    (extsArg : Option (List String)) : Except PyErr (List (FPath × Option FPath)) :=
  find_raw_files_loop fs base extsArg jpegs []

/-- Concrete filesystem for the file-finder witnesses: a RAW directory `r`
holding `A.arw` and `A.DNG`. -/
def fsF : FS := ⟨[⟨["r"], "A.arw"⟩, ⟨["r"], "A.DNG"⟩], [["r"]]⟩

/-- The argument list `add_keywords_to_xmp` passes to `subprocess.run`:
binary, `-overwrite_original`, one `-XMP-dc:Subject+=` argument per keyword,
then the sidecar path. -/
def build_exiftool_cmd (exiftoolPath : String) (keywords : List String) (xmp : FPath) :
    List String :=
  ([exiftoolPath, "-overwrite_original"]
    ++ keywords.map (fun k => "-XMP-dc:Subject+=" ++ k)) ++ [pathStr xmp]

/-- Embedding of `xmp_tagger.add_keywords_to_xmp`.  The returned list holds the
external-process invocations performed (none for an empty keyword list, one
otherwise); a missing sidecar raises `FileNotFoundError` before any
invocation.  The external process itself is outside the model, so a run is
represented by its argument list. -/
def add_keywords_to_xmp (fs : FS) (xmp : FPath) (keywords : List String)
    (exiftoolPath : String) : Except PyErr (List (List String)) :=
  if ¬ fileExists fs xmp then
    .error (.fileNotFoundError ("XMP file not found: " ++ pathStr xmp))
  else if keywords.isEmpty then .ok []
  else .ok [build_exiftool_cmd exiftoolPath keywords xmp]

/-- The writing loop of `batch_add_keywords`: for each entry whose RAW file is
in the with-sidecar list and whose keyword list is truthy (non-empty), call the
single-item writer; every other entry is skipped silently. -/
def batch_write_loop (fs : FS) (exiftoolPath : String) (files_with_xmp : List FPath) :
    List (FPath × List String) → Except PyErr (List (List String))
  | [] => .ok []
  | (raw, kws) :: rest =>
    if files_with_xmp.contains raw && !kws.isEmpty then
      match add_keywords_to_xmp fs (get_xmp_path raw) kws exiftoolPath with
      | .error e => .error e
      | .ok cmds =>
        match batch_write_loop fs exiftoolPath files_with_xmp rest with
        | .error e => .error e
        | .ok more => .ok (cmds ++ more)
    else batch_write_loop fs exiftoolPath files_with_xmp rest

/-- Embedding of `xmp_tagger.batch_add_keywords`: first every RAW key must
exist (else `FileNotFoundError`, before any invocation), then the sidecar
partition is computed and the write loop runs. -/
def batch_add_keywords (fs : FS) (entries : List (FPath × List String))
    (exiftoolPath : String) : Except PyErr (List (List String)) :=
  match (entries.map Prod.fst).find? (fun p => !(fileExists fs p)) with
  | some p => .error (.fileNotFoundError ("RAW file not found: " ++ pathStr p))
  | none =>
    batch_write_loop fs exiftoolPath (ensure_xmp_sidecars fs (entries.map Prod.fst)).1 entries

/-- Concrete filesystem for the writer witnesses: RAW files `A`, `C` with
sidecars, `B` without. -/
def fsT : FS :=
  ⟨[⟨["r"], "A.ARW"⟩, ⟨["r"], "A.xmp"⟩, ⟨["r"], "B.ARW"⟩, ⟨["r"], "C.ARW"⟩, ⟨["r"], "C.xmp"⟩],
   [["r"]]⟩

/-- A JSON value.  Numbers keep their source lexeme: no claim inspects a
numeric value, only whether parsing succeeds. -/
inductive Json where
  | null
  | bool (b : Bool)
  | num (lexeme : String)
  | str (s : String)
  | arr (elems : List Json)
  | obj (fields : List (String × Json))

/-- JSON whitespace skipping. -/
def skipWs : List Char → List Char
  | [] => []
  | c :: rest => if c = ' ' ∨ c = '\n' ∨ c = '\t' ∨ c = '\r' then skipWs rest else c :: rest

/-- JSON string escape codes (the `\uXXXX` form is outside the modelled
subset). -/
def escChar (c : Char) : Option Char :=
  if c = '"' ∨ c = '\\' ∨ c = '/' then some c
  else if c = 'n' then some '\n'
  else if c = 't' then some '\t'
  else if c = 'r' then some '\r'
  else if c = 'b' then some (Char.ofNat 8)
  else if c = 'f' then some (Char.ofNat 12)
  else none

/-- Body of a JSON string literal, after the opening quote. -/
def parseStrChars : List Char → Option (List Char × List Char)
  | [] => none
  | '"' :: rest => some ([], rest)
  | '\\' :: rest =>
    match rest with
    | [] => none
    | e :: rest2 =>
      match escChar e with
      | none => none
      | some c =>
        match parseStrChars rest2 with
        | none => none
        | some (cs, r) => some (c :: cs, r)
  | c :: rest =>
    match parseStrChars rest with
    | none => none
    | some (cs, r) => some (c :: cs, r)

/-- Longest digit run. -/
def takeDigits : List Char → List Char × List Char
  | [] => ([], [])
  | c :: rest =>
    if c.isDigit then
      let (d, r) := takeDigits rest
      (c :: d, r)
    else ([], c :: rest)

/-- Integer part of a JSON number: `0` or a nonzero digit followed by digits. -/
def parseIntPart : List Char → Option (List Char × List Char)
  | [] => none
  | c :: rest =>
    if c = '0' then some ([c], rest)
    else if c.isDigit then
      let (d, r) := takeDigits rest
      some (c :: d, r)
    else none

/-- Optional fraction part (consumed only when well formed; a malformed one is
left in place and surfaces as trailing input). -/
def parseFracPart (l : List Char) : List Char × List Char :=
  match l with
  | '.' :: rest =>
    let (d, r) := takeDigits rest
    if d.isEmpty then ([], l) else ('.' :: d, r)
  | _ => ([], l)

/-- Optional exponent part. -/
def parseExpPart (l : List Char) : List Char × List Char :=
  match l with
  | c :: rest =>
    if c = 'e' ∨ c = 'E' then
      match rest with
      | s :: rest2 =>
        if s = '+' ∨ s = '-' then
          let (d, r) := takeDigits rest2
          if d.isEmpty then ([], l) else (c :: s :: d, r)
        else
          let (d, r) := takeDigits rest
          if d.isEmpty then ([], l) else (c :: d, r)
      | [] => ([], l)
    else ([], l)
  | [] => ([], l)

/-- A complete JSON number lexeme. -/
def parseNumLex (l : List Char) : Option (List Char × List Char) :=
  match l with
  | '-' :: rest =>
    match parseIntPart rest with
    | none => none
    | some (i, r) =>
      let (f, r2) := parseFracPart r
      let (x, r3) := parseExpPart r2
      some ('-' :: (i ++ f ++ x), r3)
  | _ =>
    match parseIntPart l with
    | none => none
    | some (i, r) =>
      let (f, r2) := parseFracPart r
      let (x, r3) := parseExpPart r2
      some (i ++ f ++ x, r3)

mutual

/-- One JSON value (fuelled recursive descent). -/
def parseVal : Nat → List Char → Option (Json × List Char)
  | 0, _ => none
  | fuel + 1, l =>
    match skipWs l with
    | 'n' :: 'u' :: 'l' :: 'l' :: r => some (.null, r)
    | 't' :: 'r' :: 'u' :: 'e' :: r => some (.bool true, r)
    | 'f' :: 'a' :: 'l' :: 's' :: 'e' :: r => some (.bool false, r)
    | '"' :: r =>
      match parseStrChars r with
      | some (cs, r2) => some (.str (String.mk cs), r2)
      | none => none
    | '[' :: r => parseArr fuel (skipWs r)
    | '{' :: r => parseObj fuel (skipWs r)
    | other =>
      match parseNumLex other with
      | some (lx, r) => some (.num (String.mk lx), r)
      | none => none

/-- Array contents, after the opening bracket and whitespace. -/
def parseArr : Nat → List Char → Option (Json × List Char)
  | 0, _ => none
  | fuel + 1, l =>
    match l with
    | ']' :: r => some (.arr [], r)
    | _ =>
      match parseVal fuel l with
      | none => none
      | some (v, r) => parseArrTail fuel [v] (skipWs r)

/-- Remaining array elements. -/
def parseArrTail : Nat → List Json → List Char → Option (Json × List Char)
  | 0, _, _ => none
  | fuel + 1, acc, l =>
    match l with
    | ']' :: r => some (.arr acc, r)
    | ',' :: r =>
      match parseVal fuel (skipWs r) with
      | none => none
      | some (v, r2) => parseArrTail fuel (acc ++ [v]) (skipWs r2)
    | _ => none

/-- Object contents, after the opening brace and whitespace. -/
def parseObj : Nat → List Char → Option (Json × List Char)
  | 0, _ => none
  | fuel + 1, l =>
    match l with
    | '}' :: r => some (.obj [], r)
    | _ =>
      match parseMember fuel l with
      | none => none
      | some (kv, r) => parseObjTail fuel [kv] (skipWs r)

/-- One `"key": value` member. -/
def parseMember : Nat → List Char → Option ((String × Json) × List Char)
  | 0, _ => none
  | fuel + 1, l =>
    match l with
    | '"' :: r =>
      match parseStrChars r with
      | none => none
      | some (cs, r2) =>
        match skipWs r2 with
        | ':' :: r3 =>
          match parseVal fuel (skipWs r3) with
          | none => none
          | some (v, r4) => some ((String.mk cs, v), r4)
        | _ => none
    | _ => none

/-- Remaining object members. -/
def parseObjTail : Nat → List (String × Json) → List Char → Option (Json × List Char)
  | 0, _, _ => none
  | fuel + 1, acc, l =>
    match l with
    | '}' :: r => some (.obj acc, r)
    | ',' :: r =>
      match parseMember fuel (skipWs r) with
      | none => none
      | some (kv, r2) => parseObjTail fuel (acc ++ [kv]) (skipWs r2)
    | _ => none

end

/-- Model of Python `json.loads` over the JSON subset exercised by the
repository (objects, arrays, strings without `\u` escapes, numbers kept as
lexemes, booleans, null; `NaN`/`Infinity` extensions excluded): the whole
input must be one JSON document up to trailing whitespace. -/
def json_loads (s : String) : Option Json :=
  match parseVal (s.length + 1) s.data with
  | some (v, r) => if (skipWs r).isEmpty then some v else none
  | none => none

/-- Python `dict.get k default` on the parsed object; with duplicate keys
`json.loads` keeps the last occurrence, hence `getLast?`. -/
def pyDictGet (fields : List (String × Json)) (k : String) (dflt : Json) : Json :=
  match (fields.filter (fun f => f.1 == k)).getLast? with
  | some f => f.2
  | none => dflt

/-- The stream-consumption loop of `generate_keywords`: fragments are
concatenated in arrival order, skipping falsy ones (`if chunk.text:` skips
`None` and empty fragments). -/
def concatChunks (chunks : List (Option String)) : String :=
  chunks.foldl (fun acc c =>
    match c with
    | some t => if t.isEmpty then acc else acc ++ t
    | none => acc) ""

/-- The `try: json.loads ... except json.JSONDecodeError` block of
`generate_keywords`: a decode failure becomes a `ValueError` embedding the raw
response text; a parsed non-object makes `result.get` raise
`AttributeError`; a parsed object yields `result.get("keywords", [])`. -/
def parse_gemini_response (response_text : String) : Except PyErr Json :=
  match json_loads response_text with
  | none =>
    .error (.valueError ("Failed to parse Gemini response as JSON: " ++ response_text))
  | some (Json.obj fields) => .ok (pyDictGet fields "keywords" (Json.arr []))
  | some (Json.arr _) => .error (.attributeError "'list' object has no attribute 'get'")
  | some (Json.str _) => .error (.attributeError "'str' object has no attribute 'get'")
  | some (Json.num lx) =>
    .error (.attributeError ("'"
      ++ (if lx.data.any (fun c => c = '.' ∨ c = 'e' ∨ c = 'E') then "float" else "int")
      ++ "' object has no attribute 'get'"))
  | some (Json.bool _) => .error (.attributeError "'bool' object has no attribute 'get'")
  | some Json.null => .error (.attributeError "'NoneType' object has no attribute 'get'")

/-- Embedding of `keyword_generator.generate_keywords`'s local control flow:
input validation, credential resolution (explicit argument first, else the
`GEMINI_API_KEY` environment value, either being falsy is an error), then
concatenation and parsing of the streamed response.  The network call is
external, so the stream's fragments are a parameter; prompt construction,
base64 encoding and MIME lookup do not affect the returned value. -/
def generate_keywords (fs : FS) (image_path taxonomy_path : FPath)
    (api_key gemini_api_key_env : Option String) (chunks : List (Option String)) :
    Except PyErr Json :=
  if ¬ fileExists fs image_path then
    .error (.fileNotFoundError ("Image file not found: " ++ pathStr image_path))
  else if ¬ fileExists fs taxonomy_path then
    .error (.fileNotFoundError ("Taxonomy file not found: " ++ pathStr taxonomy_path))
  else
    match (match api_key with | some k => some k | none => gemini_api_key_env) with
    | none =>
      .error (.valueError "API key must be provided or set in GEMINI_API_KEY environment variable")
    | some k =>
      if k.isEmpty then
        .error (.valueError "API key must be provided or set in GEMINI_API_KEY environment variable")
      else parse_gemini_response (concatChunks chunks)

/-- Concrete filesystem for the keyword-generator witnesses: the image and the
taxonomy file exist. -/
def fsG : FS := ⟨[⟨["e"], "img.jpg"⟩, ⟨["cfg"], "tax.txt"⟩], []⟩

/-- The spec's fragment scenario: `\x7b"keywords": [` / `"x","y"` / `]\x7d`. -/
def chunksXY : List (Option String) := [some "\x7b\"keywords\": [", some "\"x\",\"y\"", some "]\x7d"]

/-- Observable outcome of a successful `process_directory` run: the returned
RAW→keywords mapping, the JPEGs passed to the keyword generator in call order,
the with-sidecar partition (`files_with_xmp`, duplicates included), and the
external writer invocations. -/
structure PipelineOut where
  result : List (FPath × List String)
  genCalls : List FPath
  verified : List FPath
  writeCmds : List (List String)
deriving DecidableEq

/-- `String.endsWith`, computed on the underlying character lists. -/
def strEndsWith (s sfx : String) : Bool :=
  sfx.data.isSuffixOf s.data

/-- Step 1 of `process_directory`: the four non-recursive globs
`*.jpg`, `*.JPG`, `*.jpeg`, `*.JPEG` over the JPEG directory, concatenated in
that order. -/
def discoverJpegs (fs : FS) (jpegDir : List String) : List FPath :=
  fs.files.filter (fun p => p.dir == jpegDir && strEndsWith p.name ".jpg")
    ++ fs.files.filter (fun p => p.dir == jpegDir && strEndsWith p.name ".JPG")
    ++ fs.files.filter (fun p => p.dir == jpegDir && strEndsWith p.name ".jpeg")
    ++ fs.files.filter (fun p => p.dir == jpegDir && strEndsWith p.name ".JPEG")

/-- Step 2 of `process_directory`: run the matcher over every discovered JPEG,
building the `jpeg_to_raw` dict and the list of unmatched JPEGs (reported as
warnings, then dropped). -/
def matchJpegs (fs : FS) (base : List String) (extsArg : Option (List String)) :
    List FPath → List (FPath × FPath) → List FPath →
      Except PyErr (List (FPath × FPath) × List FPath)
  | [], acc, miss => .ok (acc, miss)
  | j :: rest, acc, miss =>
    match find_raw_file fs j base extsArg with
    | .error e => .error e
    | .ok none => matchJpegs fs base extsArg rest acc (miss ++ [j])
    | .ok (some r) => matchJpegs fs base extsArg rest (dictInsert acc j r) miss

/-- Embedding of `pipeline.process_directory`.  The keyword generator's
successful per-JPEG output is the oracle `gen` (an inference failure would
abort the whole run, so a successful return uses only `gen`'s values); warning
prints are not modelled; in the directory model an existing-but-not-a-directory
JPEG path cannot be expressed, so the `exists`/`is_dir` pair collapses into
one directory-existence check. -/
def process_directory (fs : FS) (jpegDir rawSearch : List String) (taxonomy : FPath)
    (gen : FPath → List String) (exiftoolPath : String) (extsArg : Option (List String)) :
    Except PyErr PipelineOut :=
  if ¬ dirExists fs jpegDir then
    .error (.fileNotFoundError ("JPEG directory not found: " ++ dirStr jpegDir))
  else if ¬ dirExists fs rawSearch then
    .error (.fileNotFoundError ("RAW search path not found: " ++ dirStr rawSearch))
  else if ¬ fileExists fs taxonomy then
    .error (.fileNotFoundError ("Taxonomy file not found: " ++ pathStr taxonomy))
  else
    let jpeg_files := discoverJpegs fs jpegDir
    if jpeg_files.isEmpty then
      .error (.pipelineError ("No JPEG files found in " ++ dirStr jpegDir))
    else
      match matchJpegs fs rawSearch extsArg jpeg_files [] [] with
      | .error e => .error e
      | .ok (jpeg_to_raw, _missing) =>
        if jpeg_to_raw.isEmpty then
          .error (.pipelineError "No RAW files found for any JPEG files. Cannot proceed.")
        else
          let files_with_xmp := (ensure_xmp_sidecars fs (jpeg_to_raw.map Prod.snd)).1
          if files_with_xmp.isEmpty then
            .error (.pipelineError "No files with XMP sidecars found. Cannot proceed.")
          else
            let jpeg_to_raw_with_xmp :=
              jpeg_to_raw.filter (fun e => files_with_xmp.contains e.2)
            let raw_to_keywords :=
              jpeg_to_raw_with_xmp.foldl (fun acc e => dictInsert acc e.2 (gen e.1)) []
            match batch_add_keywords fs raw_to_keywords exiftoolPath with
            | .error e => .error e
            | .ok cmds =>
              .ok ⟨raw_to_keywords, jpeg_to_raw_with_xmp.map Prod.fst, files_with_xmp, cmds⟩

/-- Concrete filesystem for the pipeline invariant witness: one JPEG, its RAW
file with sidecar, and a taxonomy file. -/
def fsP : FS :=
  ⟨[⟨["d"], "A.jpg"⟩, ⟨["r"], "A.ARW"⟩, ⟨["r"], "A.xmp"⟩, ⟨["cfg"], "tax.txt"⟩],
   [["d"], ["r"]]⟩

/-- Concrete filesystem for the duplicate-stem scenario: `A.jpg` and `A.JPG`
in the JPEG directory, one RAW `A.ARW` with sidecar. -/
def fsD : FS :=
  ⟨[⟨["d"], "A.jpg"⟩, ⟨["d"], "A.JPG"⟩, ⟨["r"], "A.ARW"⟩, ⟨["r"], "A.xmp"⟩,
    ⟨["cfg"], "tax.txt"⟩],
   [["d"], ["r"]]⟩

theorem rfindIdx_eq_none {l : List Char} {c : Char} (h : c ∉ l) : rfindIdx l c = none := by
  induction l with
  | nil => rfl
  | cons x xs ih =>
    have hx : x ≠ c := fun hxc => h (hxc ▸ List.mem_cons_self x xs)
    have hxs : c ∉ xs := fun hm => h (List.mem_cons_of_mem x hm)
    simp [rfindIdx, ih hxs, hx]

theorem rfindIdx_append_cons (a : List Char) {b : List Char} {c : Char} (h : c ∉ b) :
    rfindIdx (a ++ c :: b) c = some a.length := by
  induction a with
  | nil => simp [rfindIdx, rfindIdx_eq_none h]
  | cons x xs ih => simp [rfindIdx, ih]

theorem string_ne_empty_data {s : String} (h : s ≠ "") : s.data ≠ [] := by
  intro hd
  apply h
  cases s
  simp_all [String.ext_iff]

/-- For a name of shape `stem ++ "." ++ ext` (non-empty stem, non-empty
dot-free extension), `pyStem` recovers the stem. -/
theorem pyStem_stem_ext (s e : String) (hs : s ≠ "") (he : e ≠ "") (hd : '.' ∉ e.data) :
    pyStem (s ++ "." ++ e) = s := by
  have hdata : (s ++ "." ++ e).data = s.data ++ '.' :: e.data := by
    simp [String.data_append]
  have hslen : 0 < s.data.length := List.length_pos.mpr (string_ne_empty_data hs)
  have helen : 0 < e.data.length := List.length_pos.mpr (string_ne_empty_data he)
  unfold pyStem
  rw [hdata, rfindIdx_append_cons s.data hd]
  have hcond : 0 < s.data.length ∧ s.data.length < (s.data ++ '.' :: e.data).length - 1 := by
    constructor
    · exact hslen
    · simp only [List.length_append, List.length_cons]
      omega
  dsimp only
  rw [if_pos hcond, List.take_left]

/-- C8: `get_xmp_path` is a pure function sending a RAW path to
`parent / (stem ++ ".xmp")`; on names of the form `stem.EXT` the result is
`stem.xmp` in the same directory, independent of the case (indeed of the whole
text) of the extension. -/
theorem get_xmp_path_spec (d : List String) (s e1 e2 : String)
    (hs : s ≠ "") (he1 : e1 ≠ "") (hd1 : '.' ∉ e1.data) (he2 : e2 ≠ "") (hd2 : '.' ∉ e2.data) :
    get_xmp_path ⟨d, s ++ "." ++ e1⟩ = ⟨d, s ++ ".xmp"⟩
    ∧ get_xmp_path ⟨d, s ++ "." ++ e1⟩ = get_xmp_path ⟨d, s ++ "." ++ e2⟩
    ∧ ∀ raw : FPath, get_xmp_path raw = ⟨raw.dir, pyStem raw.name ++ ".xmp"⟩ := by
  refine ⟨?_, ?_, fun raw => rfl⟩
  · simp [get_xmp_path, pyStem_stem_ext s e1 hs he1 hd1]
  · simp [get_xmp_path, pyStem_stem_ext s e1 hs he1 hd1, pyStem_stem_ext s e2 hs he2 hd2]

/-- Witness for C8 at a concrete input: `/photos/DSC00089.ARW` and its
lowercase-extension variant both map to `/photos/DSC00089.xmp`. -/
theorem get_xmp_path_spec_witness :
    get_xmp_path ⟨["photos"], "DSC00089" ++ "." ++ "ARW"⟩ = ⟨["photos"], "DSC00089" ++ ".xmp"⟩
    ∧ get_xmp_path ⟨["photos"], "DSC00089" ++ "." ++ "ARW"⟩
      = get_xmp_path ⟨["photos"], "DSC00089" ++ "." ++ "arw"⟩ := by
  have h := get_xmp_path_spec ["photos"] "DSC00089" "ARW" "arw"
    (by decide) (by decide) (by decide) (by decide) (by decide)
  exact ⟨h.1, h.2.1⟩

theorem dictInsert_keys {α : Type} (d : List (FPath × α)) (k : FPath) (v : α) (j : FPath) :
    j ∈ (dictInsert d k v).map Prod.fst ↔ j ∈ d.map Prod.fst ∨ j = k := by
  unfold dictInsert
  by_cases hk : d.any (fun e => e.1 == k)
  · rw [if_pos hk]
    have hmap : (d.map (fun e => if e.1 == k then (k, v) else e)).map Prod.fst
        = d.map Prod.fst := by
      rw [List.map_map]
      apply List.map_congr_left
      intro e _
      by_cases he : e.1 = k
      · simp [he]
      · simp [he]
    rw [hmap]
    have hkmem : k ∈ d.map Prod.fst := by
      rcases List.any_eq_true.mp hk with ⟨e, hed, hek⟩
      exact List.mem_map.mpr ⟨e, hed, beq_iff_eq.mp hek⟩
    constructor
    · exact fun h => Or.inl h
    · rintro (h | rfl)
      · exact h
      · exact hkmem
  · rw [if_neg hk]
    simp

theorem dictInsert_keys_nodup {α : Type} (d : List (FPath × α)) (k : FPath) (v : α)
    (h : (d.map Prod.fst).Nodup) : ((dictInsert d k v).map Prod.fst).Nodup := by
  unfold dictInsert
  by_cases hk : d.any (fun e => e.1 == k)
  · rw [if_pos hk]
    have hmap : (d.map (fun e => if e.1 == k then (k, v) else e)).map Prod.fst
        = d.map Prod.fst := by
      rw [List.map_map]
      apply List.map_congr_left
      intro e _
      by_cases he : e.1 = k
      · simp [he]
      · simp [he]
    rw [hmap]
    exact h
  · rw [if_neg hk]
    have hnot : k ∉ d.map Prod.fst := by
      intro hmem
      rcases List.mem_map.mp hmem with ⟨e, hed, hek⟩
      exact hk (List.any_eq_true.mpr ⟨e, hed, beq_iff_eq.mpr hek⟩)
    simp only [List.map_append, List.map_cons, List.map_nil]
    rw [List.nodup_append]
    exact ⟨h, List.nodup_singleton k, by simpa using hnot⟩

theorem dictInsert_mem {α : Type} (d : List (FPath × α)) (k : FPath) (v : α) (e : FPath × α)
    (h : e ∈ dictInsert d k v) : e ∈ d ∨ e = (k, v) := by
  unfold dictInsert at h
  by_cases hk : d.any (fun e => e.1 == k)
  · rw [if_pos hk] at h
    rcases List.mem_map.mp h with ⟨a, had, hae⟩
    by_cases hak : a.1 = k
    · right
      rw [← hae]
      simp [hak]
    · left
      rw [← hae]
      simpa [hak] using had
  · rw [if_neg hk] at h
    rcases List.mem_append.mp h with h | h
    · exact Or.inl h
    · exact Or.inr (by simpa using h)

theorem findFirstMatch_ext {fs : FS} {base : List String} {stem : String} {p : FPath} :
    ∀ {exts : List String}, findFirstMatch fs base stem exts = some p →
      ∃ ext ∈ exts, p.name = stem ++ ext := by
  intro exts
  induction exts with
  | nil => intro h; simp [findFirstMatch] at h
  | cons ext rest ih =>
    intro h
    unfold findFirstMatch at h
    cases hg : globRec fs base (stem ++ ext) with
    | nil =>
      rw [hg] at h
      rcases ih h with ⟨e, he, hp⟩
      exact ⟨e, List.mem_cons_of_mem ext he, hp⟩
    | cons m t =>
      rw [hg] at h
      have hm : m ∈ globRec fs base (stem ++ ext) := by rw [hg]; exact List.mem_cons_self m t
      have hpred := List.of_mem_filter hm
      have hname : m.name = stem ++ ext := by
        have := (Bool.and_eq_true _ _).mp hpred
        exact beq_iff_eq.mp this.2
      cases h
      exact ⟨ext, List.mem_cons_self ext rest, hname⟩

/-- C6: `find_raw_file` only ever returns a file obtained by appending one of
the supplied extensions (case included) to the JPEG stem; in particular a
search for `.DNG` only can never return a lowercase `.arw` file. -/
theorem find_raw_file_ext_member (fs : FS) (jpeg : FPath) (base : List String)
    (exts : List String) (p : FPath)
    (h : find_raw_file fs jpeg base (some exts) = .ok (some p)) :
    ∃ ext ∈ exts, p.name = pyStem jpeg.name ++ ext := by
  unfold find_raw_file at h
  by_cases hb : dirExists fs base
  · rw [if_pos hb] at h
    exact findFirstMatch_ext (Except.ok.inj h)
  · rw [if_neg hb] at h
    exact absurd h (by simp)

/-- Witness for C6: in a directory holding `A.arw` and `A.DNG`, a search with
extension list `[".DNG"]` returns `A.DNG`, whose extension is in the list. -/
theorem find_raw_file_ext_member_witness :
    find_raw_file fsF ⟨["e"], "A.jpg"⟩ ["r"] (some [".DNG"]) = .ok (some ⟨["r"], "A.DNG"⟩)
    ∧ ∃ ext ∈ [".DNG"], (FPath.mk ["r"] "A.DNG").name = pyStem "A.jpg" ++ ext := by
  refine ⟨rfl, ?_⟩
  have h := find_raw_file_ext_member fsF ⟨["e"], "A.jpg"⟩ ["r"] [".DNG"] ⟨["r"], "A.DNG"⟩ rfl
  exact h

theorem find_raw_files_loop_ok (fs : FS) (base : List String) (extsArg : Option (List String))
    (hbase : dirExists fs base = true) :
    ∀ (jpegs : List FPath) (acc : List (FPath × Option FPath)),
      (acc.map Prod.fst).Nodup →
      (∀ e ∈ acc, find_raw_file fs e.1 base extsArg = .ok e.2) →
      ∃ d, find_raw_files_loop fs base extsArg jpegs acc = .ok d
        ∧ (∀ j, j ∈ d.map Prod.fst ↔ j ∈ acc.map Prod.fst ∨ j ∈ jpegs)
        ∧ (d.map Prod.fst).Nodup
        ∧ ∀ e ∈ d, find_raw_file fs e.1 base extsArg = .ok e.2 := by
  intro jpegs
  induction jpegs with
  | nil =>
    intro acc hnd hval
    exact ⟨acc, rfl, by simp, hnd, hval⟩
  | cons j rest ih =>
    intro acc hnd hval
    have hfind : find_raw_file fs j base extsArg
        = .ok (findFirstMatch fs base (pyStem j.name) (extsArg.getD default_extensions)) := by
      unfold find_raw_file
      rw [if_pos hbase]
    set r := findFirstMatch fs base (pyStem j.name) (extsArg.getD default_extensions) with hr
    have hnd' : ((dictInsert acc j r).map Prod.fst).Nodup := dictInsert_keys_nodup acc j r hnd
    have hval' : ∀ e ∈ dictInsert acc j r, find_raw_file fs e.1 base extsArg = .ok e.2 := by
      intro e he
      rcases dictInsert_mem acc j r e he with h | h
      · exact hval e h
      · rw [h]
        exact hfind
    rcases ih (dictInsert acc j r) hnd' hval' with ⟨d, hd, hkeys, hdnd, hdval⟩
    refine ⟨d, ?_, ?_, hdnd, hdval⟩
    · unfold find_raw_files_loop
      rw [hfind]
      exact hd
    · intro j'
      rw [hkeys j', dictInsert_keys]
      constructor
      · rintro ((h | rfl) | h)
        · exact Or.inl h
        · exact Or.inr (List.mem_cons_self _ _)
        · exact Or.inr (List.mem_cons_of_mem _ h)
      · rintro (h | h)
        · exact Or.inl (Or.inl h)
        · rcases List.mem_cons.mp h with rfl | h
          · exact Or.inl (Or.inr rfl)
          · exact Or.inr h

/-- C5: for an existing base directory, `find_raw_files` succeeds and returns a
mapping with exactly one entry per input JPEG path (no input dropped, keys
without duplicates), each entry holding the single-file matcher's result —
the RAW path when matched, the explicit absent marker `none` otherwise.
The empty input list yields the empty mapping. -/
theorem find_raw_files_complete (fs : FS) (jpegs : List FPath) (base : List String)
    (extsArg : Option (List String)) (hbase : dirExists fs base = true) :
    ∃ d, find_raw_files fs jpegs base extsArg = .ok d
      ∧ (∀ j : FPath, j ∈ jpegs ↔ j ∈ d.map Prod.fst)
      ∧ (d.map Prod.fst).Nodup
      ∧ ∀ e ∈ d, find_raw_file fs e.1 base extsArg = .ok e.2 := by
  rcases find_raw_files_loop_ok fs base extsArg hbase jpegs [] (by simp) (by simp)
    with ⟨d, hd, hkeys, hnd, hval⟩
  refine ⟨d, hd, ?_, hnd, hval⟩
  intro j
  have h := hkeys j
  simp only [List.map_nil, List.not_mem_nil, false_or] at h
  exact h.symm

/-- Witness for C5: two JPEG inputs, one matched (`A.jpg` → `r/A.arw`) and one
unmatched (`B.jpg` → `none`); the returned mapping has exactly these two
entries. -/
theorem find_raw_files_complete_witness :
    find_raw_files fsF [⟨["e"], "A.jpg"⟩, ⟨["e"], "B.jpg"⟩] ["r"] none
      = .ok [(⟨["e"], "A.jpg"⟩, some ⟨["r"], "A.arw"⟩), (⟨["e"], "B.jpg"⟩, none)]
    ∧ ∃ d, find_raw_files fsF [⟨["e"], "A.jpg"⟩, ⟨["e"], "B.jpg"⟩] ["r"] none = .ok d
      ∧ (∀ j : FPath, j ∈ [⟨["e"], "A.jpg"⟩, ⟨["e"], "B.jpg"⟩] ↔ j ∈ d.map Prod.fst)
      ∧ (d.map Prod.fst).Nodup
      ∧ ∀ e ∈ d, find_raw_file fsF e.1 ["r"] none = .ok e.2 :=
  ⟨rfl, find_raw_files_complete fsF [⟨["e"], "A.jpg"⟩, ⟨["e"], "B.jpg"⟩] ["r"] none (by decide)⟩

/-- C2: on an existing sidecar and a non-empty keyword list,
`add_keywords_to_xmp` performs exactly one external invocation, whose argument
list is: the exiftool binary path, the single flag `-overwrite_original`
(exiftool's flag that both suppresses backup-file creation and overwrites in
place), one `-XMP-dc:Subject+=` argument per keyword (never a concatenated
delimited argument), and finally the sidecar path. -/
theorem add_keywords_to_xmp_cmd (fs : FS) (xmp : FPath) (keywords : List String) (x : String)
    (hex : fileExists fs xmp = true) (hne : keywords ≠ []) :
    add_keywords_to_xmp fs xmp keywords x
      = .ok [[x, "-overwrite_original"]
          ++ keywords.map (fun k => "-XMP-dc:Subject+=" ++ k) ++ [pathStr xmp]] := by
  unfold add_keywords_to_xmp
  rw [if_neg (by simp [hex])]
  rw [if_neg (by simp [hne])]
  simp [build_exiftool_cmd]

/-- Witness for C2 at a concrete input. -/
theorem add_keywords_to_xmp_cmd_witness :
    add_keywords_to_xmp fsT ⟨["r"], "A.xmp"⟩ ["landscape", "sunset"] "exiftool"
      = .ok [["exiftool", "-overwrite_original"]
          ++ (["landscape", "sunset"].map (fun k => "-XMP-dc:Subject+=" ++ k))
          ++ [pathStr ⟨["r"], "A.xmp"⟩]] :=
  add_keywords_to_xmp_cmd fsT ⟨["r"], "A.xmp"⟩ ["landscape", "sunset"] "exiftool"
    (by decide) (by decide)

theorem batch_write_loop_ok (fs : FS) (x : String) (fwx : List FPath)
    (hfwx : ∀ p ∈ fwx, check_xmp_exists fs p = true) :
    ∀ entries : List (FPath × List String),
      batch_write_loop fs x fwx entries
        = .ok ((entries.filter (fun e => fwx.contains e.1 && !e.2.isEmpty)).map
            (fun e => build_exiftool_cmd x e.2 (get_xmp_path e.1))) := by
  intro entries
  induction entries with
  | nil => rfl
  | cons e rest ih =>
    obtain ⟨raw, kws⟩ := e
    by_cases hc : (fwx.contains raw && !kws.isEmpty) = true
    · have hraw : raw ∈ fwx := by
        have := (Bool.and_eq_true _ _).mp hc
        simpa using this.1
      have hkws : kws.isEmpty = false := by
        have h2 := (Bool.and_eq_true _ _).mp hc
        simpa using h2.2
      have hxe : fileExists fs (get_xmp_path raw) = true := hfwx raw hraw
      have hadd : add_keywords_to_xmp fs (get_xmp_path raw) kws x
          = .ok [build_exiftool_cmd x kws (get_xmp_path raw)] := by
        unfold add_keywords_to_xmp
        rw [if_neg (by simp [hxe])]
        rw [if_neg (by simp [hkws])]
      show batch_write_loop fs x fwx ((raw, kws) :: rest) = _
      unfold batch_write_loop
      rw [if_pos hc, hadd, ih]
      rw [List.filter_cons]
      rw [if_pos hc]
      simp only [List.map_cons, List.singleton_append]
    · show batch_write_loop fs x fwx ((raw, kws) :: rest) = _
      unfold batch_write_loop
      rw [if_neg hc, ih]
      rw [List.filter_cons]
      rw [if_neg hc]

/-- C3: when every RAW key exists, `batch_add_keywords` succeeds and the
external writer is invoked exactly once per entry whose RAW file has an
existing sidecar and whose keyword list is non-empty, and zero times for every
other entry (those are skipped silently, not failed). -/
theorem batch_add_keywords_invocations (fs : FS) (entries : List (FPath × List String))
    (x : String) (hex : ∀ e ∈ entries, fileExists fs e.1 = true) :
    batch_add_keywords fs entries x
      = .ok ((entries.filter (fun e => check_xmp_exists fs e.1 && !e.2.isEmpty)).map
          (fun e => build_exiftool_cmd x e.2 (get_xmp_path e.1))) := by
  unfold batch_add_keywords
  have hnone : (entries.map Prod.fst).find? (fun p => !(fileExists fs p)) = none := by
    rw [List.find?_eq_none]
    intro p hp
    rcases List.mem_map.mp hp with ⟨e, he, rfl⟩
    simp [hex e he]
  rw [hnone]
  have hfwx : ∀ p ∈ (ensure_xmp_sidecars fs (entries.map Prod.fst)).1,
      check_xmp_exists fs p = true := by
    intro p hp
    unfold ensure_xmp_sidecars at hp
    rw [List.partition_eq_filter_filter] at hp
    exact List.of_mem_filter hp
  rw [batch_write_loop_ok fs x _ hfwx entries]
  have hfilter : entries.filter
        (fun e => (ensure_xmp_sidecars fs (entries.map Prod.fst)).1.contains e.1 && !e.2.isEmpty)
      = entries.filter (fun e => check_xmp_exists fs e.1 && !e.2.isEmpty) := by
    apply List.filter_congr
    intro e he
    have hcont : (ensure_xmp_sidecars fs (entries.map Prod.fst)).1.contains e.1
        = check_xmp_exists fs e.1 := by
      unfold ensure_xmp_sidecars
      rw [List.partition_eq_filter_filter]
      by_cases hchk : check_xmp_exists fs e.1 = true
      · have : e.1 ∈ (entries.map Prod.fst).filter (fun r => check_xmp_exists fs r) :=
          List.mem_filter.mpr ⟨List.mem_map_of_mem Prod.fst he, hchk⟩
        simp only [hchk]
        exact List.elem_iff.mpr (by simpa using this)
      · have : e.1 ∉ (entries.map Prod.fst).filter (fun r => check_xmp_exists fs r) := by
          intro hmem
          exact hchk (List.of_mem_filter hmem)
        simp only [Bool.not_eq_true] at hchk
        rw [hchk]
        simpa using this
    rw [hcont]
  rw [hfilter]

/-- Witness for C3: three entries — `A` (sidecar, keywords), `B` (no sidecar),
`C` (sidecar, empty keywords) — produce exactly one invocation, for `A`. -/
theorem batch_add_keywords_invocations_witness :
    batch_add_keywords fsT
        [(⟨["r"], "A.ARW"⟩, ["k1"]), (⟨["r"], "B.ARW"⟩, ["k2"]), (⟨["r"], "C.ARW"⟩, [])]
        "exiftool"
      = .ok (([(⟨["r"], "A.ARW"⟩, ["k1"]), (⟨["r"], "B.ARW"⟩, ["k2"]),
            (⟨["r"], "C.ARW"⟩, ([] : List String))].filter
          (fun e => check_xmp_exists fsT e.1 && !e.2.isEmpty)).map
          (fun e => build_exiftool_cmd "exiftool" e.2 (get_xmp_path e.1)))
    ∧ batch_add_keywords fsT
        [(⟨["r"], "A.ARW"⟩, ["k1"]), (⟨["r"], "B.ARW"⟩, ["k2"]), (⟨["r"], "C.ARW"⟩, [])]
        "exiftool"
      = .ok [["exiftool", "-overwrite_original", "-XMP-dc:Subject+=k1", "r/A.xmp"]] :=
  ⟨batch_add_keywords_invocations fsT
      [(⟨["r"], "A.ARW"⟩, ["k1"]), (⟨["r"], "B.ARW"⟩, ["k2"]), (⟨["r"], "C.ARW"⟩, [])]
      "exiftool" (by decide), rfl⟩

/-- C4: if some RAW key does not exist, `batch_add_keywords` fails with a
`FileNotFoundError` naming a missing RAW file of the mapping.  In the model an
external invocation is exactly an element of an `.ok` result, so an `.error`
result performs no invocation and leaves every sidecar unmodified — and in the
source the existence loop runs before any exiftool call. -/
theorem batch_add_keywords_missing (fs : FS) (entries : List (FPath × List String))
    (x : String) (h : ∃ e ∈ entries, fileExists fs e.1 = false) :
    ∃ p ∈ entries.map Prod.fst, fileExists fs p = false
      ∧ batch_add_keywords fs entries x
        = .error (.fileNotFoundError ("RAW file not found: " ++ pathStr p)) := by
  have hex : ∃ q ∈ entries.map Prod.fst, (!(fileExists fs q)) = true := by
    rcases h with ⟨e, he, hfe⟩
    exact ⟨e.1, List.mem_map_of_mem Prod.fst he, by simp [hfe]⟩
  have hsome : ((entries.map Prod.fst).find? (fun p => !(fileExists fs p))).isSome :=
    List.find?_isSome.mpr hex
  rcases Option.isSome_iff_exists.mp hsome with ⟨p, hp⟩
  refine ⟨p, List.mem_of_find?_eq_some hp, ?_, ?_⟩
  · have := List.find?_some hp
    simpa using this
  · unfold batch_add_keywords
    rw [hp]

/-- Witness for C4: `X.ARW` is absent from the filesystem, so the batch fails
with a missing-file error naming a missing RAW file. -/
theorem batch_add_keywords_missing_witness :
    ∃ p ∈ [(⟨["r"], "A.ARW"⟩, ["k1"]), ((⟨["r"], "X.ARW"⟩ : FPath), ["k2"])].map Prod.fst,
      fileExists fsT p = false
      ∧ batch_add_keywords fsT [(⟨["r"], "A.ARW"⟩, ["k1"]), (⟨["r"], "X.ARW"⟩, ["k2"])] "exiftool"
        = .error (.fileNotFoundError ("RAW file not found: " ++ pathStr p)) :=
  batch_add_keywords_missing fsT [(⟨["r"], "A.ARW"⟩, ["k1"]), (⟨["r"], "X.ARW"⟩, ["k2"])]
    "exiftool" ⟨(⟨["r"], "X.ARW"⟩, ["k2"]), by decide, by decide⟩

/-- C7: whenever the concatenated response parses as a JSON object,
`generate_keywords` returns exactly the object's `keywords` value (the empty
list when the field is absent, last occurrence on duplicate keys, as
`dict.get` does), and the outcome depends on the fragments only through their
concatenation. -/
theorem generate_keywords_parses_object (fs : FS) (img tax : FPath)
    (apiKey envKey : Option String) (k : String) (chunks : List (Option String))
    (fields : List (String × Json))
    (himg : fileExists fs img = true) (htax : fileExists fs tax = true)
    (hkey : (match apiKey with | some k' => some k' | none => envKey) = some k)
    (hk : k.isEmpty = false)
    (hparse : json_loads (concatChunks chunks) = some (Json.obj fields)) :
    generate_keywords fs img tax apiKey envKey chunks
      = .ok (pyDictGet fields "keywords" (Json.arr []))
    ∧ ∀ chunks' : List (Option String), concatChunks chunks' = concatChunks chunks →
        generate_keywords fs img tax apiKey envKey chunks'
          = generate_keywords fs img tax apiKey envKey chunks := by
  constructor
  · unfold generate_keywords
    rw [if_neg (by simp [himg]), if_neg (by simp [htax]), hkey]
    dsimp only
    rw [if_neg (by simp [hk])]
    unfold parse_gemini_response
    rw [hparse]
  · intro chunks' hc
    unfold generate_keywords
    rw [hc]

/-- Witness for C7: the spec's fragment scenario yields the keyword list
`["x", "y"]`. -/
theorem generate_keywords_parses_object_witness :
    json_loads (concatChunks chunksXY)
      = some (Json.obj [("keywords", Json.arr [Json.str "x", Json.str "y"])])
    ∧ generate_keywords fsG ⟨["e"], "img.jpg"⟩ ⟨["cfg"], "tax.txt"⟩ (some "key") none chunksXY
      = .ok (pyDictGet [("keywords", Json.arr [Json.str "x", Json.str "y"])] "keywords"
          (Json.arr []))
    ∧ pyDictGet [("keywords", Json.arr [Json.str "x", Json.str "y"])] "keywords" (Json.arr [])
      = Json.arr [Json.str "x", Json.str "y"] :=
  ⟨rfl,
   (generate_keywords_parses_object fsG ⟨["e"], "img.jpg"⟩ ⟨["cfg"], "tax.txt"⟩
      (some "key") none "key" chunksXY
      [("keywords", Json.arr [Json.str "x", Json.str "y"])]
      rfl rfl rfl rfl rfl).1,
   rfl⟩

/-- C1 counterexample: the concatenated text `\x7b\x7d` is a JSON object with
no `keywords` array — so it is not parseable as the claimed expected
structure — yet `generate_keywords` succeeds with the empty default instead
of failing with any condition. -/
theorem generate_keywords_empty_object_succeeds :
    json_loads (concatChunks [some "\x7b\x7d"]) = some (Json.obj [])
    ∧ generate_keywords fsG ⟨["e"], "img.jpg"⟩ ⟨["cfg"], "tax.txt"⟩ (some "key") none
        [some "\x7b\x7d"]
      = .ok (Json.arr []) :=
  ⟨rfl, rfl⟩

/-- C1 (amended): for every fragment sequence whose concatenation is not
parseable as JSON at all, `generate_keywords` fails with a `ValueError` whose
message contains the raw concatenated response text verbatim (as its
suffix). -/
theorem generate_keywords_malformed (fs : FS) (img tax : FPath)
    (apiKey envKey : Option String) (k : String) (chunks : List (Option String))
    (himg : fileExists fs img = true) (htax : fileExists fs tax = true)
    (hkey : (match apiKey with | some k' => some k' | none => envKey) = some k)
    (hk : k.isEmpty = false)
    (hparse : json_loads (concatChunks chunks) = none) :
    generate_keywords fs img tax apiKey envKey chunks
      = .error (.valueError
          ("Failed to parse Gemini response as JSON: " ++ concatChunks chunks)) := by
  unfold generate_keywords
  rw [if_neg (by simp [himg]), if_neg (by simp [htax]), hkey]
  dsimp only
  rw [if_neg (by simp [hk])]
  unfold parse_gemini_response
  rw [hparse]

/-- Witness for C1 (amended) at a concrete non-JSON fragment sequence. -/
theorem generate_keywords_malformed_witness :
    json_loads (concatChunks [some "oops ", some "not json"]) = none
    ∧ generate_keywords fsG ⟨["e"], "img.jpg"⟩ ⟨["cfg"], "tax.txt"⟩ (some "key") none
        [some "oops ", some "not json"]
      = .error (.valueError
          ("Failed to parse Gemini response as JSON: "
            ++ concatChunks [some "oops ", some "not json"])) :=
  ⟨rfl,
   generate_keywords_malformed fsG ⟨["e"], "img.jpg"⟩ ⟨["cfg"], "tax.txt"⟩
     (some "key") none "key" [some "oops ", some "not json"] rfl rfl rfl rfl rfl⟩

theorem ensure_xmp_sidecars_fst_check (fs : FS) (raws : List FPath) :
    ∀ p ∈ (ensure_xmp_sidecars fs raws).1, check_xmp_exists fs p = true := by
  intro p hp
  unfold ensure_xmp_sidecars at hp
  rw [List.partition_eq_filter_filter] at hp
  exact List.of_mem_filter hp

theorem foldl_dictInsert_mem (gen : FPath → List String) :
    ∀ (l : List (FPath × FPath)) (acc : List (FPath × List String)) (e : FPath × List String),
      e ∈ l.foldl (fun acc ent => dictInsert acc ent.2 (gen ent.1)) acc →
      e ∈ acc ∨ e.1 ∈ l.map Prod.snd := by
  intro l
  induction l with
  | nil => exact fun acc e he => Or.inl he
  | cons ent rest ih =>
    intro acc e he
    rcases ih (dictInsert acc ent.2 (gen ent.1)) e he with h | h
    · rcases dictInsert_mem acc ent.2 (gen ent.1) e h with h2 | h2
      · exact Or.inl h2
      · right
        rw [h2]
        exact List.mem_map.mpr ⟨ent, List.mem_cons_self ent rest, rfl⟩
    · right
      simp only [List.map_cons, List.mem_cons]
      exact Or.inr h

/-- C9: whenever `process_directory` returns successfully, every key of the
returned RAW→keywords mapping passed the sidecar-existence check (it came
from the with-sidecar partition computed before keyword generation and
metadata writing). -/
theorem process_directory_result_has_sidecar (fs : FS) (jpegDir rawSearch : List String)
    (taxonomy : FPath) (gen : FPath → List String) (x : String)
    (extsArg : Option (List String)) (out : PipelineOut)
    (h : process_directory fs jpegDir rawSearch taxonomy gen x extsArg = .ok out) :
    ∀ e ∈ out.result, check_xmp_exists fs e.1 = true := by
  intro e he
  unfold process_directory at h
  dsimp only at h
  iterate 10 (all_goals try split at h)
  any_goals exact Except.noConfusion h
  all_goals
    (have hout := Except.ok.inj h
     rw [← hout] at he
     dsimp only at he
     rcases foldl_dictInsert_mem gen _ [] e he with hacc | hkey
     · exact absurd hacc (List.not_mem_nil e)
     · rcases List.mem_map.mp hkey with ⟨ent, hent, heq⟩
       have hcont := List.of_mem_filter hent
       have hmem := List.elem_iff.mp hcont
       rw [← heq]
       exact ensure_xmp_sidecars_fst_check fs _ ent.2 hmem)

/-- Witness for C9: a one-asset run returns successfully and its single result
key passes the sidecar check. -/
theorem process_directory_result_has_sidecar_witness :
    process_directory fsP ["d"] ["r"] ⟨["cfg"], "tax.txt"⟩ (fun _ => ["kw"]) "exiftool" none
      = .ok ⟨[(⟨["r"], "A.ARW"⟩, ["kw"])], [⟨["d"], "A.jpg"⟩], [⟨["r"], "A.ARW"⟩],
          [["exiftool", "-overwrite_original", "-XMP-dc:Subject+=kw", "r/A.xmp"]]⟩
    ∧ check_xmp_exists fsP ⟨["r"], "A.ARW"⟩ = true :=
  ⟨rfl,
   process_directory_result_has_sidecar fsP ["d"] ["r"] ⟨["cfg"], "tax.txt"⟩
     (fun _ => ["kw"]) "exiftool" none
     ⟨[(⟨["r"], "A.ARW"⟩, ["kw"])], [⟨["d"], "A.jpg"⟩], [⟨["r"], "A.ARW"⟩],
       [["exiftool", "-overwrite_original", "-XMP-dc:Subject+=kw", "r/A.xmp"]]⟩
     rfl (⟨["r"], "A.ARW"⟩, ["kw"]) (List.mem_cons_self _ _)⟩

/-- C10: with two discovered JPEGs sharing the stem `A` (`A.jpg` then `A.JPG`),
both are matched to the same RAW path, the keyword generator is invoked once
per JPEG (two calls), and the RAW-keyed result keeps only the later JPEG's
keywords: a single entry, fewer than the two assets that survived the sidecar
check. -/
theorem process_directory_duplicate_stem :
    ∃ out, process_directory fsD ["d"] ["r"] ⟨["cfg"], "tax.txt"⟩
        (fun j => [j.name]) "exiftool" none = .ok out
      ∧ out.genCalls = [⟨["d"], "A.jpg"⟩, ⟨["d"], "A.JPG"⟩]
      ∧ out.verified = [⟨["r"], "A.ARW"⟩, ⟨["r"], "A.ARW"⟩]
      ∧ out.result = [(⟨["r"], "A.ARW"⟩, ["A.JPG"])]
      ∧ out.result.length < out.verified.length := by
  refine ⟨⟨[(⟨["r"], "A.ARW"⟩, ["A.JPG"])], [⟨["d"], "A.jpg"⟩, ⟨["d"], "A.JPG"⟩],
    [⟨["r"], "A.ARW"⟩, ⟨["r"], "A.ARW"⟩],
    [["exiftool", "-overwrite_original", "-XMP-dc:Subject+=A.JPG", "r/A.xmp"]]⟩,
    rfl, rfl, rfl, rfl, by decide⟩

end PhotoTagger
